import Mathlib

/-!
# A verification development for the ananke storage and migration subsystem

This file gives a shallow embedding, in Lean, of the storage core of the
`ananke` password manager (Python): the data model (`Entry`, `SecureEntry`,
`Timestamp`, `Ciphertext`, queries), the query matcher shared by the backends,
the JSON in-memory store (`InMemoryStore`), the SQLite store model
(`SqliteStore` and its SQL query builders), the content-addressed object store
(`TextApplication`), and the schema-migration engine, together with theorems
about them.

Python strings are modelled as `List Char` (`str.lower()` as ASCII
`Char.toLower`, which agrees with Python on the ASCII range used by the data
under test); Python `bytes` values are lists of naturals below 256; Python
dictionaries produced and consumed by the (de)serialisers are association
lists in insertion order, matching CPython's ordered dicts.  Randomness
(`uuid.uuid4()`) is modelled by passing the generated identifier(s) as
parameters, constrained where a property needs their shape (canonical UUID
text) or freshness.
-/

namespace Ananke

/-- Python `str`, modelled as its list of characters. -/
abbrev Str := List Char

/-- Coerce a Lean string literal to the `Str` model. -/
def str (s : String) : Str := s.toList

/-- Python `s.lower()` restricted to ASCII (per-character lowercasing). -/
def pyLower (s : Str) : Str := s.map Char.toLower

/-- Python `a in b` on strings: substring containment (`[] in b` is true). -/
def pyIn (a : Str) : Str → Bool
  | [] => a.isEmpty
  | c :: t => a.isPrefixOf (c :: t) || pyIn a t

/-- Case-insensitive substring containment, the matching rule used by
`QueryMatcher` for `description` / `identity` / `meta`. -/
def substrCI (a b : Str) : Bool := pyIn (pyLower a) (pyLower b)

/-- `ananke.data.common.Timestamp` / the fields of a `datetime.datetime`
carrying `timezone.utc` (the only timezone the system creates or persists:
timestamps on the wire are ISO-8601 UTC with a literal `Z`). -/
structure Timestamp where
  year : Nat
  month : Nat
  day : Nat
  hour : Nat
  minute : Nat
  second : Nat
  microsecond : Nat
deriving DecidableEq, Repr

/-- The field bounds `datetime.datetime` enforces on construction. -/
def Timestamp.wf (t : Timestamp) : Prop :=
  1 ≤ t.year ∧ t.year ≤ 9999 ∧ 1 ≤ t.month ∧ t.month ≤ 12 ∧
  1 ≤ t.day ∧ t.day ≤ 31 ∧ t.hour < 24 ∧ t.minute < 60 ∧ t.second < 60 ∧
  t.microsecond < 1000000

instance : DecidablePred Timestamp.wf := by
  intro t
  unfold Timestamp.wf
  infer_instance

/-- `ananke.data.entry.Ciphertext`: an encrypted blob (Python `bytes`), one
natural number per byte; validity (`< 256`) is tracked by `bytesWf`. -/
abbrev Ciphertext := List Nat

/-- Every byte of a Python `bytes` object is below 256. -/
def bytesWf (b : Ciphertext) : Prop := ∀ x ∈ b, x < 256

instance : DecidablePred bytesWf := by
  intro b
  unfold bytesWf
  infer_instance

/-- `ananke.data.entry.Entry`: an encrypted record.  `entry_id` is the
str-subclass `EntryId` of `ananke.data.core`; `identity` and `meta` are
optional. -/
structure Entry where
  entry_id : Str
  key_id : Str
  timestamp : Timestamp
  description : Str
  identity : Option Str
  ciphertext : Ciphertext
  meta : Option Str
deriving DecidableEq, Repr

/-- `ananke.store.store.Query`: all four filter fields optional; an absent
field is a wildcard. -/
structure Query where
  entry_id : Option Str := none
  description : Option Str := none
  identity : Option Str := none
  meta : Option Str := none
deriving DecidableEq, Repr

/-- `Query.is_empty`: true iff all four fields are `None`. -/
def Query.isEmpty (q : Query) : Bool :=
  q.entry_id.isNone && q.description.isNone && q.identity.isNone && q.meta.isNone

namespace QueryMatcher

/-- `QueryMatcher.match_id` (ananke/store/in_memory_store.py): exact equality
when the query id is present, wildcard otherwise. -/
def matchId (q : Query) (e : Entry) : Bool :=
  match q.entry_id with
  | none => true
  | some i => i == e.entry_id

/-- `QueryMatcher.match_description`: case-insensitive substring containment
of the query description inside the candidate description. -/
def matchDescription (q : Query) (description : Str) : Bool :=
  match q.description with
  | none => true
  | some qd => pyIn (pyLower qd) (pyLower description)

/-- `QueryMatcher.match_identity`: wildcard when absent from the query; a
present query identity never matches a candidate without an identity. -/
def matchIdentity (q : Query) (e : Entry) : Bool :=
  match q.identity with
  | none => true
  | some qi =>
    match e.identity with
    | none => false
    | some ei => pyIn (pyLower qi) (pyLower ei)

/-- `QueryMatcher.match_meta`: same shape as `match_identity`. -/
def matchMeta (q : Query) (e : Entry) : Bool :=
  match q.meta with
  | none => true
  | some qm =>
    match e.meta with
    | none => false
    | some em => pyIn (pyLower qm) (pyLower em)

/-- The conjunction `InMemoryStore.query` evaluates for a candidate entry:
the bucket key (the entry's description) is tested by `match_description`
and the entry by the other three matchers. -/
def accepts (q : Query) (e : Entry) : Bool :=
  matchDescription q e.description && (matchId q e && matchIdentity q e && matchMeta q e)

end QueryMatcher

/-! ## Decimal printing and parsing (used by `Timestamp.isoformat`) -/

/-- The ASCII digit character for `n < 10`. -/
def digitChar (n : Nat) : Char := Char.ofNat (48 + n)

/-- Zero-padded fixed-width decimal rendering, most significant digit first
(the formatting `datetime.isoformat` uses for every numeric field). -/
def padDigits : Nat → Nat → Str
  | 0, _ => []
  | w + 1, n => digitChar (n / 10 ^ w % 10) :: padDigits w n

/-- Consume exactly `w` decimal digits, accumulating their value. -/
def readDigits : Nat → Nat → Str → Option (Nat × Str)
  | acc, 0, s => some (acc, s)
  | _, _ + 1, [] => none
  | acc, w + 1, c :: s =>
    if c.isDigit then readDigits (acc * 10 + (c.toNat - 48)) w s else none

/-- Consume one expected character. -/
def expectChar (c : Char) : Str → Option Str
  | [] => none
  | d :: s => if d == c then some s else none

/-- `Timestamp.isoformat` (ananke/data/common.py): `datetime.isoformat()` of a
UTC-aware datetime — microseconds printed only when nonzero — with the
trailing `+00:00` offset replaced by a literal `Z`. -/
def Timestamp.isoformat (t : Timestamp) : Str :=
  padDigits 4 t.year ++ '-' :: padDigits 2 t.month ++ '-' :: padDigits 2 t.day ++
    'T' :: padDigits 2 t.hour ++ ':' :: padDigits 2 t.minute ++ ':' :: padDigits 2 t.second ++
    (if t.microsecond = 0 then [] else '.' :: padDigits 6 t.microsecond) ++ ['Z']

/-- The optional `.ffffff` microsecond group: present iff the next
character is a dot; otherwise the microsecond is zero. -/
def readMicroseconds : Str → Option (Nat × Str)
  | '.' :: rest => readDigits 0 6 rest
  | s => some (0, s)

/-- `Timestamp.fromisoformat`: `datetime.fromisoformat` restricted to the
grammar the system itself persists (`YYYY-MM-DDTHH:MM:SS[.ffffff]Z`, the
output language of `Timestamp.isoformat`), including the range validation
`datetime` performs on the parsed fields. -/
def Timestamp.fromisoformat (s : Str) : Option Timestamp := do
  let (y, s) ← readDigits 0 4 s
  let s ← expectChar '-' s
  let (mo, s) ← readDigits 0 2 s
  let s ← expectChar '-' s
  let (d, s) ← readDigits 0 2 s
  let s ← expectChar 'T' s
  let (h, s) ← readDigits 0 2 s
  let s ← expectChar ':' s
  let (mi, s) ← readDigits 0 2 s
  let s ← expectChar ':' s
  let (sec, s) ← readDigits 0 2 s
  let (us, s) ← readMicroseconds s
  let s ← expectChar 'Z' s
  if s.isEmpty then
    let t : Timestamp := ⟨y, mo, d, h, mi, sec, us⟩
    if t.wf then some t else none
  else none

/-! ## Base64 (`Ciphertext.to_base64` / `Ciphertext.from_base64`) -/

/-- The standard base64 alphabet used by `base64.b64encode`. -/
def b64Table : Str := str "ABCDEFGHIJKLMNOPQRSTUVWXYZabcdefghijklmnopqrstuvwxyz0123456789+/"

/-- The base64 character for a six-bit group. -/
def b64Char (n : Nat) : Char := b64Table.getD n 'A'

/-- Position of a character in the base64 alphabet. -/
def b64IndexAux : Str → Nat → Char → Option Nat
  | [], _, _ => none
  | d :: t, i, c => if d == c then some i else b64IndexAux t (i + 1) c

/-- Decode one base64 character back to its six-bit group. -/
def b64Index (c : Char) : Option Nat := b64IndexAux b64Table 0 c

/-- `Ciphertext.to_base64`: `base64.b64encode`, three bytes per four output
characters, `=`-padded. -/
def b64encode : Ciphertext → Str
  | [] => []
  | [a] => b64Char (a / 4) :: b64Char (a % 4 * 16) :: '=' :: '=' :: []
  | [a, b] => b64Char (a / 4) :: b64Char (a % 4 * 16 + b / 16) :: b64Char (b % 16 * 4) :: '=' :: []
  | a :: b :: c :: rest =>
    b64Char (a / 4) :: b64Char (a % 4 * 16 + b / 16) :: b64Char (b % 16 * 4 + c / 64) ::
      b64Char (c % 64) :: b64encode rest

/-- `Ciphertext.from_base64`: `base64.b64decode` on well-formed base64 text
(four-character groups, padding only in the final group); anything else is
the `binascii.Error` branch, re-raised as `ValueError`. -/
def b64decode : Str → Option Ciphertext
  | [] => some []
  | c1 :: c2 :: c3 :: c4 :: rest =>
    if c3 == '=' then
      if c4 == '=' && rest.isEmpty then do
        let s1 ← b64Index c1
        let s2 ← b64Index c2
        some [s1 * 4 + s2 / 16]
      else none
    else if c4 == '=' then
      if rest.isEmpty then do
        let s1 ← b64Index c1
        let s2 ← b64Index c2
        let s3 ← b64Index c3
        some [s1 * 4 + s2 / 16, s2 % 16 * 16 + s3 / 4]
      else none
    else do
      let s1 ← b64Index c1
      let s2 ← b64Index c2
      let s3 ← b64Index c3
      let s4 ← b64Index c4
      let rest' ← b64decode rest
      some ((s1 * 4 + s2 / 16) :: (s2 % 16 * 16 + s3 / 4) :: (s3 % 4 * 64 + s4) :: rest')
  | _ => none

/-! ## Dictionaries (`to_dict` / `from_dict`) -/

/-- The string-valued dictionaries `to_dict` produces and `from_dict`
consumes, as association lists in CPython insertion order. -/
abbrev Dict := List (Str × Str)

/-- `dict.get` on the models above (keys are unique in every dict the
system builds). -/
def dictGet (d : Dict) (k : Str) : Option Str := d.lookup k

/-- Python truthiness filtering applied to the optional fields:
`Identity(x) if x else None` maps both `None` and `""` to `None`. -/
def truthyOpt : Option Str → Option Str
  | none => none
  | some s => if s.isEmpty then none else some s

/-- `Entry.to_dict` (ananke/data/entry.py): required keys in source order,
then `identity` and `meta` only when present. -/
def Entry.to_dict (e : Entry) : Dict :=
  [(str "timestamp", e.timestamp.isoformat), (str "id", e.entry_id),
   (str "key_id", e.key_id), (str "description", e.description),
   (str "ciphertext", b64encode e.ciphertext)] ++
    (match e.identity with | some i => [(str "identity", i)] | none => []) ++
    (match e.meta with | some m => [(str "meta", m)] | none => [])

/-- `Entry.from_dict`: require the five mandatory keys, validate the
timestamp and the base64 ciphertext, and apply the truthiness rule to
`identity` / `meta`.  `None` is the `ValueError` path. -/
def Entry.from_dict (d : Dict) : Option Entry := do
  let id ← dictGet d (str "id")
  let key_id ← dictGet d (str "key_id")
  let tsStr ← dictGet d (str "timestamp")
  let desc ← dictGet d (str "description")
  let ctStr ← dictGet d (str "ciphertext")
  let ts ← Timestamp.fromisoformat tsStr
  let ct ← b64decode ctStr
  some ⟨id, key_id, ts, desc, truthyOpt (dictGet d (str "identity")), ct,
        truthyOpt (dictGet d (str "meta"))⟩

/-! ## UUID text (`uuid.UUID` / `uuid.uuid4`) -/

/-- One hexadecimal digit. -/
def isHexDigit (c : Char) : Bool :=
  c.isDigit || ('a' ≤ c && c ≤ 'f') || ('A' ≤ c && c ≤ 'F')

/-- Consume exactly `n` hexadecimal digits. -/
def hexRun : Nat → Str → Option Str
  | 0, s => some s
  | _ + 1, [] => none
  | n + 1, c :: t => if isHexDigit c then hexRun n t else none

/-- The 8-4-4-4-12 dashed hexadecimal shape: the text accepted by
`uuid.UUID(str)` in the canonical form `str(uuid.uuid4())` emits. -/
def uuidShape (s : Str) : Bool :=
  (do
    let s ← hexRun 8 s
    let s ← expectChar '-' s
    let s ← hexRun 4 s
    let s ← expectChar '-' s
    let s ← hexRun 4 s
    let s ← expectChar '-' s
    let s ← hexRun 4 s
    let s ← expectChar '-' s
    let s ← hexRun 12 s
    if s.isEmpty then some () else none).isSome

/-- `uuid.UUID(str)` followed by `str(...)`: validate the dashed-hex shape
and normalise to lowercase (the canonical text a `UUID` object prints). -/
def uuidNormalize (s : Str) : Option Str :=
  if uuidShape s then some (pyLower s) else none

/-- `ananke.data.secure_entry.SecureEntry`: the plaintext counterpart of an
`Entry`; its `entry_id` is the UUID-valued `EntryId` of
`ananke.data.common`, modelled by its canonical text. -/
structure SecureEntry where
  entry_id : Str
  key_id : Str
  timestamp : Timestamp
  description : Str
  identity : Option Str
  plaintext : Str
  meta : Option Str
deriving DecidableEq, Repr

/-- `SecureEntry.to_dict`: required keys in source order, then the optional
ones when present. -/
def SecureEntry.to_dict (e : SecureEntry) : Dict :=
  [(str "timestamp", e.timestamp.isoformat), (str "id", e.entry_id),
   (str "key_id", e.key_id), (str "description", e.description),
   (str "plaintext", e.plaintext)] ++
    (match e.identity with | some i => [(str "identity", i)] | none => []) ++
    (match e.meta with | some m => [(str "meta", m)] | none => [])

/-- `SecureEntry.from_dict`: require the five mandatory keys, validate the
id as a UUID (normalising to its canonical text) and the timestamp, and
apply the truthiness rule to `identity` / `meta`. -/
def SecureEntry.from_dict (d : Dict) : Option SecureEntry := do
  let idStr ← dictGet d (str "id")
  let key_id ← dictGet d (str "key_id")
  let tsStr ← dictGet d (str "timestamp")
  let desc ← dictGet d (str "description")
  let pt ← dictGet d (str "plaintext")
  let id ← uuidNormalize idStr
  let ts ← Timestamp.fromisoformat tsStr
  some ⟨id, key_id, ts, desc, truthyOpt (dictGet d (str "identity")), pt,
        truthyOpt (dictGet d (str "meta"))⟩

/-! ## The JSON in-memory store (`ananke.store.in_memory_store`) -/

/-- `EntryMap`: a `defaultdict` from `Description` to a set of `Entry`,
modelled as an association list in key-insertion order whose buckets are
duplicate-free lists (Python sets deduplicate by `Entry.__eq__`, which
compares all fields). -/
abbrev EntryMap := List (Str × List Entry)

/-- `set.add`: a no-op when an equal element is already present (the existing
element is kept), otherwise the element joins the set. -/
def bucketAdd (b : List Entry) (e : Entry) : List Entry :=
  if e ∈ b then b else b ++ [e]

/-- `set.discard`: drop the equal element if present. -/
def bucketDiscard (b : List Entry) (e : Entry) : List Entry :=
  b.filter (fun x => x ≠ e)

/-- `EntryMap.add`: `self[entry.description].add(entry)` — the defaultdict
creates the bucket on first access. -/
def EntryMap.add : EntryMap → Entry → EntryMap
  | [], e => [(e.description, [e])]
  | (k, b) :: rest, e =>
    if k = e.description then (k, bucketAdd b e) :: rest
    else (k, b) :: EntryMap.add rest e

/-- `EntryMap.discard`: `self[entry.description].discard(entry)` — the
defaultdict also creates an empty bucket when the key was absent. -/
def EntryMap.discard : EntryMap → Entry → EntryMap
  | [], e => [(e.description, [])]
  | (k, b) :: rest, e =>
    if k = e.description then (k, bucketDiscard b e) :: rest
    else (k, b) :: EntryMap.discard rest e

/-- `ananke.store.in_memory_store.InMemoryStore`. -/
structure InMemoryStore where
  storage : EntryMap
  dirty : Bool
deriving DecidableEq, Repr

/-- `InMemoryStore.put`: add to the bucket of the entry's description and
mark the store dirty. -/
def InMemoryStore.put (s : InMemoryStore) (e : Entry) : InMemoryStore :=
  ⟨s.storage.add e, true⟩

/-- `InMemoryStore.remove`: discard from the bucket and mark dirty. -/
def InMemoryStore.remove (s : InMemoryStore) (e : Entry) : InMemoryStore :=
  ⟨s.storage.discard e, true⟩

/-- `InMemoryStore.query`: iterate the buckets, filter bucket keys by
`match_description`, then the bucket members by the other three matchers. -/
def InMemoryStore.query (s : InMemoryStore) (q : Query) : List Entry :=
  (s.storage.filter (fun kv => QueryMatcher.matchDescription q kv.1)).flatMap
    (fun kv => kv.2.filter (fun e =>
      QueryMatcher.matchId q e && QueryMatcher.matchIdentity q e && QueryMatcher.matchMeta q e))

/-- `InMemoryStore.select_all`: every entry of every bucket. -/
def InMemoryStore.selectAll (s : InMemoryStore) : List Entry :=
  s.storage.flatMap (fun kv => kv.2)

/-! ## The SQLite store (`ananke.store.sqlite_store`) and its query builder -/

/-- One row of the `entries` table (`id` is declared `UNIQUE NOT NULL`). -/
structure SqlRow where
  id : Str
  keyid : Str
  timestamp : Str
  description : Str
  identity : Option Str
  ciphertext : Str
  meta : Option Str
deriving DecidableEq, Repr

/-- The row `SqliteStore.put` binds for an entry. -/
def rowOfEntry (e : Entry) : SqlRow :=
  ⟨e.entry_id, e.key_id, e.timestamp.isoformat, e.description, e.identity,
   b64encode e.ciphertext, e.meta⟩

/-- `SqliteStore.put`: `INSERT OR REPLACE` keyed by the `UNIQUE` column
`id` — conflicting rows are deleted and the fresh row inserted. -/
def SqliteStore.put (t : List SqlRow) (e : Entry) : List SqlRow :=
  t.filter (fun r => r.id ≠ e.entry_id) ++ [rowOfEntry e]

/-- `SqliteStore.remove`: `DELETE FROM entries WHERE id = :id`. -/
def SqliteStore.remove (t : List SqlRow) (e : Entry) : List SqlRow :=
  t.filter (fun r => r.id ≠ e.entry_id)

/-- SQLite `LIKE` for the patterns the builders produce: `%` matches any
sequence, `_` any single character, letters case-insensitively (ASCII). -/
def sqlLike : Str → Str → Bool
  | [], s => s.isEmpty
  | '%' :: p, [] => sqlLike p []
  | '%' :: p, d :: t => sqlLike p (d :: t) || sqlLike ('%' :: p) t
  | '_' :: _, [] => false
  | '_' :: p, _ :: t => sqlLike p t
  | _ :: _, [] => false
  | c :: p, d :: t => (c.toLower == d.toLower) && sqlLike p t
termination_by p s => (p.length, s.length)

/-- The predicate the WHERE clause built by `_create_query`
(ananke/store/sqlite_store.py) evaluates on a row: one `LIKE` per
truthy query field — `id LIKE :id` and `meta LIKE :meta` with the raw
value, `description LIKE :description` with `%value%`, `identity LIKE
:identity` with the raw value; a `NULL` column never satisfies `LIKE`. -/
def rowMatchesStore (q : Query) (r : SqlRow) : Bool :=
  (match q.entry_id with
   | none => true
   | some i => sqlLike i r.id) &&
  (match q.description with
   | none => true
   | some d => if d.isEmpty then true else sqlLike ('%' :: d ++ ['%']) r.description) &&
  (match q.identity with
   | none => true
   | some i =>
     if i.isEmpty then true
     else match r.identity with
          | none => false
          | some ri => sqlLike i ri) &&
  (match q.meta with
   | none => true
   | some m =>
     if m.isEmpty then true
     else match r.meta with
          | none => false
          | some rm => sqlLike m rm)

/-- `SqliteStore.query`: the `is_empty` guard, then the rows the built SQL
selects, in table order. -/
def SqliteStore.query (t : List SqlRow) (q : Query) : List SqlRow :=
  if q.isEmpty then [] else t.filter (rowMatchesStore q)

/-- `" AND "`-joined WHERE fragments. -/
def joinAnd (ws : List Str) : Str := List.intercalate (str " AND ") ws

/-- `_create_query` (ananke/store/sqlite_store.py): the SELECT text and the
named-parameter bindings, fields tested for Python truthiness in source
order (`entry_id` is an always-truthy `EntryId` object; the three string
fields are falsy when empty). -/
def createQueryStore (q : Query) : Str × List (Str × Str) :=
  let base := str "SELECT id, keyid, timestamp, description, identity, ciphertext, meta FROM entries WHERE "
  let w1 := match q.entry_id with
    | some _ => [str "id LIKE :id"]
    | none => []
  let p1 := match q.entry_id with
    | some i => [(str "id", i)]
    | none => []
  let w2 := match q.description with
    | some d => if d.isEmpty then [] else [str "description LIKE :description"]
    | none => []
  let p2 := match q.description with
    | some d => if d.isEmpty then [] else [(str "description", '%' :: d ++ ['%'])]
    | none => []
  let w3 := match q.identity with
    | some i => if i.isEmpty then [] else [str "identity LIKE :identity"]
    | none => []
  let p3 := match q.identity with
    | some i => if i.isEmpty then [] else [(str "identity", i)]
    | none => []
  let w4 := match q.meta with
    | some m => if m.isEmpty then [] else [str "meta LIKE :meta"]
    | none => []
  let p4 := match q.meta with
    | some m => if m.isEmpty then [] else [(str "meta", m)]
    | none => []
  (base ++ joinAnd (w1 ++ w2 ++ w3 ++ w4), p1 ++ p2 ++ p3 ++ p4)

/-- `_create_query` (ananke/application/sqlite.py): same structure, but the
`identity` parameter is `%value%`-wildcarded as well (`meta` still raw). -/
def createQueryApp (q : Query) : Str × List (Str × Str) :=
  let base := str "SELECT id, keyid, timestamp, description, identity, ciphertext, meta FROM entries WHERE "
  let w1 := match q.entry_id with
    | some _ => [str "id LIKE :id"]
    | none => []
  let p1 := match q.entry_id with
    | some i => [(str "id", i)]
    | none => []
  let w2 := match q.description with
    | some d => if d.isEmpty then [] else [str "description LIKE :description"]
    | none => []
  let p2 := match q.description with
    | some d => if d.isEmpty then [] else [(str "description", '%' :: d ++ ['%'])]
    | none => []
  let w3 := match q.identity with
    | some i => if i.isEmpty then [] else [str "identity LIKE :identity"]
    | none => []
  let p3 := match q.identity with
    | some i => if i.isEmpty then [] else [(str "identity", '%' :: i ++ ['%'])]
    | none => []
  let w4 := match q.meta with
    | some m => if m.isEmpty then [] else [str "meta LIKE :meta"]
    | none => []
  let p4 := match q.meta with
    | some m => if m.isEmpty then [] else [(str "meta", m)]
    | none => []
  (base ++ joinAnd (w1 ++ w2 ++ w3 ++ w4), p1 ++ p2 ++ p3 ++ p4)

/-- Reachable SQLite table states: the empty table created by `init`, grown
by `put` and `remove`. -/
inductive SqlReachable : List SqlRow → Prop where
  | init : SqlReachable []
  | put (t : List SqlRow) (e : Entry) : SqlReachable t → SqlReachable (SqliteStore.put t e)
  | remove (t : List SqlRow) (e : Entry) : SqlReachable t → SqlReachable (SqliteStore.remove t e)

/-! ## Application-layer targeting (`ananke.application.common`) -/

/-- `Target = EntryId | Description`. -/
inductive Target where
  | entryId (i : Str)
  | description (d : Str)
deriving DecidableEq, Repr

/-- `target_matches` (ananke/application/common.py): exact id equality for an
`EntryId` target, case-sensitive `in` (substring) for a `Description`
target. -/
def targetMatches (t : Target) (entry_id description : Str) : Bool :=
  match t with
  | .entryId i => i == entry_id
  | .description d => pyIn d description

/-- `ananke.application.json.JsonApplication`: the decrypted-entry list held
in memory (the data file mirrors it after every mutation). -/
structure JsonApplication where
  entries : List Entry
deriving DecidableEq, Repr

/-- `JsonApplication.lookup`: filter by the application `QueryMatcher`
(case-insensitive description and identity matching, code identical to the
shared matcher's `match_description` / `match_identity`). -/
def JsonApplication.lookup (app : JsonApplication) (description : Str)
    (maybe_identity : Option Str := none) : List Entry :=
  let q : Query := { description := some description, identity := maybe_identity }
  app.entries.filter (fun e =>
    QueryMatcher.matchDescription q e.description && QueryMatcher.matchIdentity q e)

/-- The selective field replacement `modify` applies before `entry.update()`
refreshes the timestamp (the ciphertext argument arrives already encoded). -/
def Entry.applyMods (e : Entry) (md mi : Option Str) (mc : Option Ciphertext)
    (mm : Option Str) (now : Timestamp) : Entry :=
  { e with
    description := md.getD e.description,
    ciphertext := mc.getD e.ciphertext,
    identity := match mi with | some i => some i | none => e.identity,
    meta := match mm with | some m => some m | none => e.meta,
    timestamp := now }

/-- `JsonApplication.modify`: zero `target_matches` hits raise `No entries
match`, several raise `Multiple entries match`; the unique hit is popped,
mutated, and re-appended. -/
def JsonApplication.modify (app : JsonApplication) (t : Target) (md mi : Option Str)
    (mc : Option Ciphertext) (mm : Option Str) (now : Timestamp) :
    Except Str JsonApplication :=
  let f := fun (e : Entry) => targetMatches t e.entry_id e.description
  match app.entries.filter f with
  | [] => .error (str "No entries match")
  | [e] => .ok ⟨app.entries.eraseP f ++ [e.applyMods md mi mc mm now]⟩
  | _ => .error (str "Multiple entries match")

/-- `JsonApplication.remove`: same one-hit targeting policy; the unique hit
is deleted. -/
def JsonApplication.remove (app : JsonApplication) (t : Target) :
    Except Str JsonApplication :=
  let f := fun (e : Entry) => targetMatches t e.entry_id e.description
  match app.entries.filter f with
  | [] => .error (str "No entries match")
  | [_] => .ok ⟨app.entries.eraseP f⟩
  | _ => .error (str "Multiple entries match")

/-! ## The object store (`ananke.application.text.TextApplication`) -/

/-- `ananke.data.secure_entry.SecureIndexElement`. -/
structure IndexElem where
  entry_id : Str
  key_id : Str
  description : Str
deriving DecidableEq, Repr

/-- `SecureEntry.to_index_element`. -/
def SecureEntry.toIndexElement (e : SecureEntry) : IndexElem :=
  ⟨e.entry_id, e.key_id, e.description⟩

/-- The object store's durable state: the decrypted index (`db/index.asc`,
in list order) and the objects directory (`db/objects/<id>.asc`, one
encrypted `SecureEntry` per file, keyed by filename). -/
structure TextAppState where
  elements : List IndexElem
  objects : List (Str × SecureEntry)
deriving DecidableEq, Repr

/-- Writing `db/objects/<id>.asc`: overwrite in place or create. -/
def objWrite (os : List (Str × SecureEntry)) (id : Str) (e : SecureEntry) :
    List (Str × SecureEntry) :=
  if (os.lookup id).isSome then os.map (fun p => if p.1 = id then (id, e) else p)
  else os ++ [(id, e)]

/-- `Path.unlink` of `db/objects/<id>.asc`. -/
def objErase (os : List (Str × SecureEntry)) (id : Str) : List (Str × SecureEntry) :=
  os.filter (fun p => p.1 ≠ id)

/-- The ids the index records. -/
def elemIds (l : List IndexElem) : List Str := l.map (fun x => x.entry_id)

/-- The ids of the object files on disk. -/
def objKeys (os : List (Str × SecureEntry)) : List Str := os.map (fun p => p.1)

/-- The selective field replacement `TextApplication.modify` applies to the
decrypted object before `entry.update()`; the entry id is never touched. -/
def SecureEntry.applyMods (e : SecureEntry) (md mi mp mm : Option Str)
    (now : Timestamp) : SecureEntry :=
  { e with
    description := md.getD e.description,
    plaintext := mp.getD e.plaintext,
    identity := match mi with | some i => some i | none => e.identity,
    meta := match mm with | some m => some m | none => e.meta,
    timestamp := now }

/-- One successfully completed `TextApplication` mutation.  `add` writes the
object file then appends the index element (`EntryId.generate()` is a fresh
random UUIDv4, modelled by the freshness hypothesis); `modify` and `remove`
demand exactly one `target_matches` hit (`elements = l1 ++ elem :: l2` with
no hit in `l1 ++ l2`) and a readable / unlinkable object file, the
conditions under which the Python call returns instead of raising. -/
inductive TAStep : TextAppState → TextAppState → Prop where
  | add (s : TextAppState) (e : SecureEntry)
      (fresh : e.entry_id ∉ elemIds s.elements) :
      TAStep s ⟨s.elements ++ [e.toIndexElement], objWrite s.objects e.entry_id e⟩
  | modify (s : TextAppState) (t : Target) (l1 l2 : List IndexElem) (elem : IndexElem)
      (entry : SecureEntry) (md mi mp mm : Option Str) (now : Timestamp)
      (hsplit : s.elements = l1 ++ elem :: l2)
      (hrest : ∀ x ∈ l1 ++ l2, targetMatches t x.entry_id x.description = false)
      (hhit : targetMatches t elem.entry_id elem.description = true)
      (hread : s.objects.lookup elem.entry_id = some entry) :
      TAStep s
        ⟨l1 ++ l2 ++ [{ elem with description := md.getD elem.description }],
         objWrite s.objects (entry.applyMods md mi mp mm now).entry_id
           (entry.applyMods md mi mp mm now)⟩
  | remove (s : TextAppState) (t : Target) (l1 l2 : List IndexElem) (elem : IndexElem)
      (hsplit : s.elements = l1 ++ elem :: l2)
      (hrest : ∀ x ∈ l1 ++ l2, targetMatches t x.entry_id x.description = false)
      (hhit : targetMatches t elem.entry_id elem.description = true)
      (hfile : (s.objects.lookup elem.entry_id).isSome) :
      TAStep s ⟨l1 ++ l2, objErase s.objects elem.entry_id⟩

/-- States reachable from a fresh object store (no index file, empty
objects directory) by completed mutations. -/
inductive TAReachable : TextAppState → Prop where
  | init : TAReachable ⟨[], []⟩
  | step (s s' : TextAppState) : TAReachable s → TAStep s s' → TAReachable s'

/-! ## Migration engine (`ananke.data.migration`) and schema marker -/

/-- `PASCAL_TO_CAMEL` (ananke/data/migration.py). -/
def PASCAL_TO_CAMEL : List (Str × Str) :=
  [(str "Timestamp", str "timestamp"), (str "Id", str "id"),
   (str "KeyId", str "keyId"), (str "Description", str "description"),
   (str "Identity", str "identity"), (str "Ciphertext", str "ciphertext"),
   (str "Meta", str "meta")]

/-- `remap_keys`: rename each key through the mapping, keeping unknown keys
(dict-comprehension order preserved; the fixed mappings used here never
merge two keys). -/
def remapKeys (mapping : List (Str × Str)) (d : Dict) : Dict :=
  d.map (fun kv => ((mapping.lookup kv.1).getD kv.1, kv.2))

/-- `entry["id"] = value`: replace in place, or append when absent. -/
def dictSet (d : Dict) (k v : Str) : Dict :=
  if (d.lookup k).isSome then d.map (fun kv => if kv.1 = k then (k, v) else kv)
  else d ++ [(k, v)]

/-- `_migrate_json_v2_to_v3`: rename PascalCase keys to camelCase in every
record. -/
def migrateJsonV2V3 (data : List Dict) : List Dict :=
  data.map (remapKeys PASCAL_TO_CAMEL)

/-- `_migrate_json_v3_to_v4`: overwrite every record's `id` with a fresh
`str(uuid.uuid4())`, supplied here as `freshIds`. -/
def migrateJsonV3V4 (freshIds : Nat → Str) (data : List Dict) : List Dict :=
  data.mapIdx (fun i r => dictSet r (str "id") (freshIds i))

/-- `migrate_json_data`: a missing data file returns silently; otherwise
dispatch on the starting version — 3 and 2 chain forward to v4, 1 and
every other version raise `MigrationError` before any file is touched.
`none` on the data-file side never occurs in an `Except.error` result:
the error is raised before any write. -/
def migrateJsonData (freshIds : Nat → Str) (fromVersion : Nat)
    (dataFile : Option (List Dict)) : Except Str (Option (List Dict)) :=
  match dataFile with
  | none => .ok none
  | some data =>
    if fromVersion = 3 then .ok (some (migrateJsonV3V4 freshIds data))
    else if fromVersion = 2 then .ok (some (migrateJsonV3V4 freshIds (migrateJsonV2V3 data)))
    else if fromVersion = 1 then .error (str "schema version 1 not supported by JSON backend")
    else .error (str "no supported migration path")

/-- A row of the SQLite `entries` table across migration steps (`keyid` is
absent from schema-v1 tables). -/
structure SqlMigRow where
  id : Str
  keyid : Option Str
  timestamp : Str
  description : Str
  identity : Option Str
  ciphertext : Str
  meta : Option Str
deriving DecidableEq, Repr

/-- `_migrate_sqlite_v1_to_v2`: rebuild the table with `keyid` populated
from the configured key. -/
def migrateSqliteV1V2 (key : Str) (rows : List SqlMigRow) : List SqlMigRow :=
  rows.map (fun r => { r with keyid := some key })

/-- `_migrate_sqlite_v2_to_v3`: no changes needed. -/
def migrateSqliteV2V3 (rows : List SqlMigRow) : List SqlMigRow := rows

/-- `_migrate_sqlite_v3_to_v4`: reassign every row's id to a fresh
`str(uuid.uuid4())`. -/
def migrateSqliteV3V4 (freshIds : Nat → Str) (rows : List SqlMigRow) : List SqlMigRow :=
  rows.mapIdx (fun i r => { r with id := freshIds i })

/-- `migrate_sqlite_data`: missing file returns silently; versions 3, 2, 1
chain forward to v4; every other version raises `MigrationError` before
any write. -/
def migrateSqliteData (freshIds : Nat → Str) (key : Str) (fromVersion : Nat)
    (dataFile : Option (List SqlMigRow)) : Except Str (Option (List SqlMigRow)) :=
  match dataFile with
  | none => .ok none
  | some rows =>
    if fromVersion = 3 then .ok (some (migrateSqliteV3V4 freshIds rows))
    else if fromVersion = 2 then
      .ok (some (migrateSqliteV3V4 freshIds (migrateSqliteV2V3 rows)))
    else if fromVersion = 1 then
      .ok (some (migrateSqliteV3V4 freshIds (migrateSqliteV2V3 (migrateSqliteV1V2 key rows))))
    else .error (str "no supported migration path")

/-- `CURRENT_SCHEMA_VERSION` (ananke/data/schema.py). -/
def CURRENT_SCHEMA_VERSION : Nat := 3

/-- Accumulate the decimal value of a digit string (`int(s)` on the strings
the system writes). -/
def parseNatAux : Nat → Str → Option Nat
  | acc, [] => some acc
  | acc, c :: t => if c.isDigit then parseNatAux (acc * 10 + (c.toNat - 48)) t else none

/-- `SchemaVersion.from_str`: Python `int(s)` on the digit strings the
system writes. -/
def schemaVersionFromStr : Str → Option Nat :=
  fun s => if s.isEmpty then none else parseNatAux 0 s

/-- `get_schema_version`: a missing schema file is written with the current
version, which is returned; otherwise the file's integer is returned and
nothing is written.  The result pairs the returned version with the write
performed, `none` when nothing parses. -/
def getSchemaVersion (schemaFile : Option Str) : Option (Nat × Option Str) :=
  match schemaFile with
  | none =>
    some (CURRENT_SCHEMA_VERSION, some (str (toString CURRENT_SCHEMA_VERSION)))
  | some contents => (schemaVersionFromStr contents).map (fun v => (v, none))

/-- What `ananke.cli.application` does with the version it read. -/
inductive StartupAction where
  | invokeMigration
  | reject
  | proceed
deriving DecidableEq, Repr

/-- The dispatch in `ananke.cli.application`: migrate when the persisted
version is below `CURRENT_SCHEMA_VERSION`, reject when above, proceed
otherwise. -/
def startupAction (found : Nat) : StartupAction :=
  if found < CURRENT_SCHEMA_VERSION then .invokeMigration
  else if CURRENT_SCHEMA_VERSION < found then .reject
  else .proceed

/-! ## Sample data and auxiliary predicates used by concrete statements -/

/-- `2023-06-12T08:13:45.171872Z`, the timestamp of the spec's migration
scenario. -/
def ts0 : Timestamp := ⟨2023, 6, 12, 8, 13, 45, 171872⟩

/-- A microsecond-free timestamp. -/
def ts1 : Timestamp := ⟨2024, 1, 2, 3, 4, 5, 0⟩

/-- A representative stored entry. -/
def entryA : Entry :=
  ⟨str "11111111-2222-3333-4444-555555555555", str "371C136C", ts0,
   str "https://example.com", none, [104, 101], none⟩

/-- An entry with id `a` and no metadata. -/
def entryB1 : Entry := ⟨str "a", str "k", ts0, str "d", none, [], none⟩

/-- Same id and description as `entryB1` but with metadata set. -/
def entryB2 : Entry := { entryB1 with meta := some (str "m") }

/-- An entry whose identity is present but empty. -/
def entryEmptyIdentity : Entry := ⟨str "x", str "k", ts1, str "d", some [], [], none⟩

/-- A plaintext record with a canonical UUID id. -/
def secureA : SecureEntry :=
  ⟨str "123e4567-e89b-42d3-a456-426614174000", str "371C136C", ts0,
   str "site", none, str "pw", none⟩

/-- An entry whose stored description differs from the lookup text only in
letter case. -/
def entry10 : Entry := ⟨str "e10", str "k", ts1, str "Example", none, [], none⟩

/-- A JSON application holding only `entry10`. -/
def app10 : JsonApplication := ⟨[entry10]⟩

/-- The spec's v2 migration record. -/
def v2record : Dict :=
  [(str "Timestamp", str "2023-06-12T08:13:45.171872Z"), (str "Id", str "abc123"),
   (str "KeyId", str "371C136C"), (str "Description", str "https://example.com"),
   (str "Ciphertext", str "aGVsbG8=")]

/-- A canonical UUID string. -/
def uuidSample : Str := str "123e4567-e89b-42d3-a456-426614174000"

/-- How many live records of a collection carry a given id. -/
def countById (l : List Entry) (i : Str) : Nat :=
  (l.filter (fun e => e.entry_id = i)).length

/-- Spec-side reading of §4.3: the LIKE fragments of the WHERE clause, one
per present (truthy) query field, in builder order. -/
def whereFragments (q : Query) : List Str :=
  (match q.entry_id with
   | some _ => [str "id LIKE :id"]
   | none => []) ++
  (match q.description with
   | some d => if d.isEmpty then [] else [str "description LIKE :description"]
   | none => []) ++
  (match q.identity with
   | some i => if i.isEmpty then [] else [str "identity LIKE :identity"]
   | none => []) ++
  (match q.meta with
   | some m => if m.isEmpty then [] else [str "meta LIKE :meta"]
   | none => [])

/-- C1: For every query and candidate entry, the shared query matcher accepts
the entry iff every present query field matches: description, identity, and
meta match by case-insensitive substring containment of the query value inside
the candidate's value; entry_id matches by exact equality; a query with
identity set never matches a candidate whose identity is absent; and an absent
query field matches any candidate. -/
theorem C1_shared_matcher_accepts_iff (q : Query) (e : Entry) :
    QueryMatcher.accepts q e = true ↔
      ((∀ i ∈ q.entry_id, i = e.entry_id) ∧
       (∀ d ∈ q.description, substrCI d e.description = true) ∧
       (∀ qi ∈ q.identity, ∃ ei, e.identity = some ei ∧ substrCI qi ei = true) ∧
       (∀ qm ∈ q.meta, ∃ em, e.meta = some em ∧ substrCI qm em = true)) := by
  unfold QueryMatcher.accepts QueryMatcher.matchId QueryMatcher.matchDescription
    QueryMatcher.matchIdentity QueryMatcher.matchMeta substrCI
  cases hq1 : q.entry_id <;> cases hq2 : q.description <;>
    cases hq3 : q.identity <;> cases hq4 : q.meta <;>
    cases h1 : e.identity <;> cases h2 : e.meta <;>
    (try simp_all) <;> tauto

/-- C2 counterexample: the claim fails on the JSON in-memory store.  In the
reachable store holding exactly `entryA` (a fresh store after one `put`),
the empty query returns `[entryA]`, not the empty list:
`InMemoryStore.query` has no `is_empty` guard, so an all-wildcard query
matches everything. -/
theorem C2_counterexample :
    Query.isEmpty {} = true ∧
    InMemoryStore.query (InMemoryStore.put ⟨[], false⟩ entryA) {} = [entryA] ∧
    [entryA] ≠ ([] : List Entry) := by
  refine ⟨rfl, rfl, by simp⟩

/-- C2 amended: for every state of the SQLite store, an empty query returns
the empty list; for every state of the JSON in-memory store, an empty query
matches every entry, returning exactly what `select_all` returns. -/
theorem C2_empty_query_amended :
    (∀ (t : List SqlRow) (q : Query), q.isEmpty = true → SqliteStore.query t q = []) ∧
    (∀ (s : InMemoryStore) (q : Query), q.isEmpty = true → s.query q = s.selectAll) := by
  constructor
  · intro t q h
    simp [SqliteStore.query, h]
  · rintro s ⟨qi, qd, qid, qm⟩ h
    simp only [Query.isEmpty, Bool.and_eq_true, Option.isNone_iff_eq_none] at h
    obtain ⟨⟨⟨h1, h2⟩, h3⟩, h4⟩ := h
    subst h1 h2 h3 h4
    simp [InMemoryStore.query, InMemoryStore.selectAll, QueryMatcher.matchDescription,
      QueryMatcher.matchId, QueryMatcher.matchIdentity, QueryMatcher.matchMeta]

/-- Witness for `C2_empty_query_amended` at a one-entry table and store. -/
theorem C2_empty_query_amended_witness :
    SqliteStore.query [rowOfEntry entryA] {} = [] ∧
    (InMemoryStore.put ⟨[], false⟩ entryA).query {} =
      (InMemoryStore.put ⟨[], false⟩ entryA).selectAll :=
  ⟨C2_empty_query_amended.1 [rowOfEntry entryA] {} rfl,
   C2_empty_query_amended.2 (InMemoryStore.put ⟨[], false⟩ entryA) {} rfl⟩

/-- C4 counterexample: the claim fails for `identity` and `meta`.  For the
query with only `meta = "m"` (resp. only `identity = "i"`), the store
builder binds the raw value, not the `%value%` pattern the claim
requires. -/
theorem C4_counterexample :
    (createQueryStore { meta := some (str "m") }).2 = [(str "meta", str "m")] ∧
    str "m" ≠ '%' :: str "m" ++ ['%'] ∧
    (createQueryStore { identity := some (str "i") }).2 = [(str "identity", str "i")] ∧
    str "i" ≠ '%' :: str "i" ++ ['%'] := by
  refine ⟨rfl, by decide, rfl, by decide⟩

/-- C4 amended: both builders AND-join one LIKE predicate per present and
non-empty (truthy) query field; only the `description` parameter is
`%value%`-wildcarded by the store builder (the application builder also
wildcards `identity`); the `entry_id`, `identity` (store) and `meta`
parameters are bound to the raw values. -/
theorem C4_query_builder_amended (q : Query) :
    (createQueryStore q).1 =
      str "SELECT id, keyid, timestamp, description, identity, ciphertext, meta FROM entries WHERE " ++
        joinAnd (whereFragments q) ∧
    (createQueryStore q).2.lookup (str "id") = q.entry_id ∧
    (createQueryStore q).2.lookup (str "description") =
      q.description.bind (fun d => if d.isEmpty then none else some ('%' :: d ++ ['%'])) ∧
    (createQueryStore q).2.lookup (str "identity") =
      q.identity.bind (fun i => if i.isEmpty then none else some i) ∧
    (createQueryStore q).2.lookup (str "meta") =
      q.meta.bind (fun m => if m.isEmpty then none else some m) ∧
    (createQueryApp q).1 = (createQueryStore q).1 ∧
    (createQueryApp q).2.lookup (str "identity") =
      q.identity.bind (fun i => if i.isEmpty then none else some ('%' :: i ++ ['%'])) ∧
    (createQueryApp q).2.lookup (str "meta") =
      q.meta.bind (fun m => if m.isEmpty then none else some m) := by
  rcases q with ⟨qi, qd, qid, qm⟩
  rcases qi with _ | i <;> rcases qd with _ | d <;> rcases qid with _ | j <;>
    rcases qm with _ | m <;>
    (try rcases d with _ | ⟨dc, dt⟩) <;> (try rcases j with _ | ⟨jc, jt⟩) <;>
    (try rcases m with _ | ⟨mc, mt⟩) <;>
    exact ⟨rfl, rfl, rfl, rfl, rfl, rfl, rfl, rfl⟩

/-- C7: migrating from a version with no supported path — anything outside
1–3 for either backend, and also version 1 for the JSON backend — raises
`MigrationError` and produces no transformed contents: in the model the
error result carries no new file state, matching the source, which raises
before opening the data file. -/
theorem C7_unsupported_version_error (freshIds : Nat → Str) (key : Str) (v : Nat)
    (jdata : List Dict) (sdata : List SqlMigRow)
    (h1 : v ≠ 1) (h2 : v ≠ 2) (h3 : v ≠ 3) :
    migrateJsonData freshIds v (some jdata) = .error (str "no supported migration path") ∧
    migrateSqliteData freshIds key v (some sdata) = .error (str "no supported migration path") ∧
    migrateJsonData freshIds 1 (some jdata) =
      .error (str "schema version 1 not supported by JSON backend") := by
  refine ⟨?_, ?_, rfl⟩ <;> simp [migrateJsonData, migrateSqliteData, h1, h2, h3]

/-- Witness for `C7_unsupported_version_error` at version `2^63 - 1`. -/
theorem C7_unsupported_version_error_witness :
    migrateJsonData (fun _ => uuidSample) (2 ^ 63 - 1) (some [v2record]) =
      .error (str "no supported migration path") ∧
    migrateSqliteData (fun _ => uuidSample) (str "371C136C") (2 ^ 63 - 1) (some []) =
      .error (str "no supported migration path") ∧
    migrateJsonData (fun _ => uuidSample) 1 (some [v2record]) =
      .error (str "schema version 1 not supported by JSON backend") :=
  C7_unsupported_version_error (fun _ => uuidSample) (str "371C136C") (2 ^ 63 - 1)
    [v2record] [] (by norm_num) (by norm_num) (by norm_num)

/-- C8: the code contradicts the claim (and the repository's own test suite,
which writes `str(CURRENT_SCHEMA_VERSION)` to the schema file and then
asserts it reads back as 4): `CURRENT_SCHEMA_VERSION` is 3, so a first run
writes and returns 3, and startup at persisted version 3 proceeds without
migrating even though the engine defines a v3→v4 step. -/
theorem C8_schema_version_code_bug :
    CURRENT_SCHEMA_VERSION = 3 ∧ (3 : Nat) ≠ 4 ∧
    getSchemaVersion none = some (3, some (str "3")) ∧
    startupAction 3 = .proceed ∧
    migrateJsonData (fun _ => uuidSample) 3 (some [[(str "id", str "abc123")]]) =
      .ok (some [[(str "id", uuidSample)]]) := by
  refine ⟨rfl, by decide, rfl, rfl, rfl⟩

/-- `set.add` twice with the same element is the same as once. -/
theorem bucketAdd_idem (b : List Entry) (e : Entry) :
    bucketAdd (bucketAdd b e) e = bucketAdd b e := by
  unfold bucketAdd
  by_cases h : e ∈ b
  · simp [h]
  · simp [h]

/-- After `EntryMap.add m e`, the entry `e` is among the stored entries. -/
theorem entryMapAdd_mem (m : EntryMap) (e : Entry) :
    e ∈ (EntryMap.add m e).flatMap (fun kv => kv.2) := by
  induction m with
  | nil => simp [EntryMap.add]
  | cons kv rest ih =>
    rcases kv with ⟨k, b⟩
    unfold EntryMap.add
    by_cases h : k = e.description
    · simp only [h, if_true, List.flatMap_cons, List.mem_append]
      left
      unfold bucketAdd
      by_cases hb : e ∈ b <;> simp [hb]
    · simp only [h, if_false, List.flatMap_cons, List.mem_append]
      right
      exact ih

/-- `EntryMap.add` twice with the same entry is the same as once. -/
theorem entryMapAdd_idem (m : EntryMap) (e : Entry) :
    EntryMap.add (EntryMap.add m e) e = EntryMap.add m e := by
  induction m with
  | nil => simp [EntryMap.add, bucketAdd]
  | cons kv rest ih =>
    rcases kv with ⟨k, b⟩
    by_cases h : k = e.description
    · simp [EntryMap.add, h, bucketAdd_idem]
    · simp [EntryMap.add, h, ih]

/-- C3 counterexample: the claim fails on the JSON in-memory store.  After
`put entryB1` then `put entryB2` — two entries sharing the id `a` but
differing in `meta` — the store holds two live records with that id:
Python-set deduplication uses full-field `Entry.__eq__`, not the id. -/
theorem C3_counterexample :
    entryB2.entry_id = str "a" ∧
    countById ((InMemoryStore.put (InMemoryStore.put ⟨[], false⟩ entryB1) entryB2).selectAll)
      (str "a") = 2 := by
  exact ⟨rfl, rfl⟩

/-- C3 amended: `put` never fails on an existing id.  For the SQLite store
it is insert-or-replace keyed by `id` — after `put e` exactly one row
carries `e`'s id, and id-uniqueness holds in every reachable table state.
The JSON in-memory store's `put` instead deduplicates by full-record
equality: the entry is always live afterwards and an identical re-`put` is
a no-op, but two records sharing an id may coexist when any field
differs. -/
theorem C3_put_amended :
    (∀ (t : List SqlRow) (e : Entry),
      ((SqliteStore.put t e).filter (fun r => r.id = e.entry_id)).length = 1) ∧
    (∀ t, SqlReachable t → (t.map (fun r => r.id)).Nodup) ∧
    (∀ (s : InMemoryStore) (e : Entry), e ∈ (s.put e).selectAll) ∧
    (∀ (s : InMemoryStore) (e : Entry), (s.put e).put e = s.put e) := by
  refine ⟨?_, ?_, ?_, ?_⟩
  · intro t e
    unfold SqliteStore.put
    rw [List.filter_append]
    have h : (t.filter (fun r => r.id ≠ e.entry_id)).filter (fun r => r.id = e.entry_id) = [] := by
      rw [List.filter_filter]
      apply List.filter_eq_nil_iff.mpr
      intro r _
      simp only [Bool.and_eq_true, decide_eq_true_eq, ne_eq]
      tauto
    rw [h]
    simp [rowOfEntry]
  · intro t h
    induction h with
    | init => simp
    | put t e hr ih =>
      unfold SqliteStore.put
      rw [List.map_append, List.nodup_append]
      refine ⟨((List.filter_sublist t).map _).nodup ih, by simp, ?_⟩
      intro x hx
      simp only [List.mem_map, List.mem_filter, ne_eq, decide_not, Bool.not_eq_eq_eq_not,
        Bool.not_true, decide_eq_false_iff_not] at hx
      obtain ⟨r, ⟨_, hr⟩, rfl⟩ := hx
      simp [rowOfEntry, hr]
    | remove t e hr ih =>
      exact ((List.filter_sublist t).map _).nodup ih
  · intro s e
    exact entryMapAdd_mem s.storage e
  · intro s e
    show InMemoryStore.mk (EntryMap.add (EntryMap.add s.storage e) e) true = _
    rw [entryMapAdd_idem]
    rfl

/-- Witness for `C3_put_amended`: id-uniqueness at a concrete reachable
one-row table. -/
theorem C3_put_amended_witness :
    ((SqliteStore.put [] entryB1).map (fun r => r.id)).Nodup ∧
    ((SqliteStore.put [] entryB1).filter (fun r => r.id = entryB1.entry_id)).length = 1 :=
  ⟨C3_put_amended.2.1 _ (SqlReachable.put [] entryB1 SqlReachable.init),
   C3_put_amended.1 [] entryB1⟩

/-- C10: an application-layer modify/remove target given as a `Description`
matches iff it is a case-sensitive substring of the entry's description,
while an `EntryId` target matches by exact equality; consequently, a target
differing from the stored description only in letter case (`example`
against stored `Example`) is found by `lookup` (case-insensitive matcher)
while `modify` and `remove` report that no entries match. -/
theorem C10_target_matching_case_sensitive :
    (∀ (d eid desc : Str),
      targetMatches (.description d) eid desc = true ↔ pyIn d desc = true) ∧
    (∀ (i eid desc : Str), targetMatches (.entryId i) eid desc = true ↔ i = eid) ∧
    JsonApplication.lookup app10 (str "example") = [entry10] ∧
    JsonApplication.remove app10 (.description (str "example")) =
      .error (str "No entries match") ∧
    JsonApplication.modify app10 (.description (str "example")) none none none none ts1 =
      .error (str "No entries match") := by
  refine ⟨fun d eid desc => Iff.rfl, fun i eid desc => ?_, ?_, rfl, rfl⟩
  · simp [targetMatches]
  · decide

/-- A lookup succeeds exactly when the id names an object file. -/
theorem lookup_isSome_iff_objKeys (os : List (Str × SecureEntry)) (id : Str) :
    (os.lookup id).isSome = true ↔ id ∈ objKeys os := by
  simp only [List.lookup_isSome_iff, objKeys, List.mem_map, beq_iff_eq]
  constructor
  · rintro ⟨p, hp, rfl⟩
    exact ⟨p, hp, rfl⟩
  · rintro ⟨p, hp, rfl⟩
    exact ⟨p, hp, rfl⟩

/-- A successful lookup returns a stored pair. -/
theorem lookup_mem_pairs {os : List (Str × SecureEntry)} {id : Str} {e : SecureEntry}
    (h : os.lookup id = some e) : (id, e) ∈ os := by
  obtain ⟨l1, l2, rfl, -⟩ := List.lookup_eq_some_iff.mp h
  simp

/-- Overwriting an existing object file leaves the set of filenames
unchanged. -/
theorem objKeys_write_mem (os : List (Str × SecureEntry)) (id : Str) (e : SecureEntry)
    (h : id ∈ objKeys os) : objKeys (objWrite os id e) = objKeys os := by
  unfold objWrite
  rw [if_pos ((lookup_isSome_iff_objKeys os id).mpr h)]
  unfold objKeys
  rw [List.map_map]
  apply List.map_congr_left
  intro p _
  by_cases hp : p.1 = id <;> simp [hp]

/-- Creating a fresh object file appends its filename. -/
theorem objKeys_write_not_mem (os : List (Str × SecureEntry)) (id : Str) (e : SecureEntry)
    (h : id ∉ objKeys os) : objKeys (objWrite os id e) = objKeys os ++ [id] := by
  unfold objWrite
  rw [if_neg (fun hc => h ((lookup_isSome_iff_objKeys os id).mp hc))]
  simp [objKeys]

/-- Unlinking removes exactly the matching filename. -/
theorem objKeys_erase_eq (os : List (Str × SecureEntry)) (id : Str) :
    objKeys (objErase os id) = (objKeys os).filter (fun x => x ≠ id) := by
  induction os with
  | nil => rfl
  | cons p t ih =>
    by_cases h : p.1 = id <;>
      simp [objErase, objKeys, List.filter_cons, h, decide_not] at ih ⊢ <;>
      exact ih

/-- Every pair of an overwritten directory is the new pair or an old one. -/
theorem mem_objWrite_elim {os : List (Str × SecureEntry)} {id : Str} {e : SecureEntry}
    {p : Str × SecureEntry} (hp : p ∈ objWrite os id e) : p = (id, e) ∨ p ∈ os := by
  unfold objWrite at hp
  split at hp
  · obtain ⟨q, hq, rfl⟩ := List.mem_map.mp hp
    by_cases h : q.1 = id
    · left
      simp [h]
    · right
      simpa [h] using hq
  · rcases List.mem_append.mp hp with h | h
    · right
      exact h
    · left
      simpa using h

/-- The index ids distribute over list concatenation. -/
theorem elemIds_append (a b : List IndexElem) :
    elemIds (a ++ b) = elemIds a ++ elemIds b := by
  simp [elemIds]

/-- C5: in every object-store state reachable by successfully completed
`add` / `modify` / `remove` operations, the set of entry ids recorded in
the index equals the set of ids of the object files in the objects
directory.  (Proved from the stronger invariant that both id lists are
duplicate-free, each object file's content carries the id it is named by,
and the two id sets coincide.) -/
theorem C5_index_objects_agreement (s : TextAppState) (h : TAReachable s) :
    ∀ x, x ∈ elemIds s.elements ↔ x ∈ objKeys s.objects := by
  suffices hInv : (elemIds s.elements).Nodup ∧ (objKeys s.objects).Nodup ∧
      (∀ p ∈ s.objects, p.2.entry_id = p.1) ∧
      (∀ x, x ∈ elemIds s.elements ↔ x ∈ objKeys s.objects) from hInv.2.2.2
  induction h with
  | init => simp [elemIds, objKeys]
  | step s s' hr hstep ih =>
    obtain ⟨ihN, ihKN, ihC, ihIff⟩ := ih
    cases hstep with
    | add e fresh =>
      have hfresh2 : e.entry_id ∉ objKeys s.objects := fun hc => fresh ((ihIff _).mpr hc)
      refine ⟨?_, ?_, ?_, ?_⟩
      · rw [elemIds_append]
        rw [List.nodup_append]
        refine ⟨ihN, by simp [elemIds], ?_⟩
        intro x hx
        simp only [elemIds, SecureEntry.toIndexElement, List.map_cons, List.map_nil,
          List.mem_singleton]
        intro hx2
        subst hx2
        exact fresh hx
      · rw [objKeys_write_not_mem _ _ _ hfresh2, List.nodup_append]
        refine ⟨ihKN, by simp, ?_⟩
        intro x hx hx2
        apply hfresh2
        have hx3 : x = e.entry_id := by simpa using hx2
        rwa [hx3] at hx
      · intro p hp
        rcases mem_objWrite_elim hp with rfl | hmem
        · rfl
        · exact ihC p hmem
      · intro x
        rw [elemIds_append, objKeys_write_not_mem _ _ _ hfresh2]
        simp only [List.mem_append]
        exact or_congr (ihIff x) (by simp [elemIds, SecureEntry.toIndexElement])
    | modify t l1 l2 elem entry md mi mp mm now hsplit hrest hhit hread =>
      have hz : entry.entry_id = elem.entry_id := ihC _ (lookup_mem_pairs hread)
      have hkey : (entry.applyMods md mi mp mm now).entry_id = elem.entry_id := hz
      have hmemkey : elem.entry_id ∈ objKeys s.objects :=
        (lookup_isSome_iff_objKeys s.objects elem.entry_id).mp (by rw [hread]; rfl)
      have hperm : List.Perm
          (elemIds (l1 ++ l2 ++ [{ elem with description := md.getD elem.description }]))
          (elemIds s.elements) := by
        rw [hsplit, elemIds_append, elemIds_append, elemIds_append]
        simp only [elemIds, List.map_cons, List.map_nil]
        rw [List.append_assoc]
        exact List.Perm.append_left _ (List.perm_append_singleton _ _)
      have hkeys : objKeys (objWrite s.objects (entry.applyMods md mi mp mm now).entry_id
          (entry.applyMods md mi mp mm now)) = objKeys s.objects := by
        rw [hkey]
        exact objKeys_write_mem _ _ _ hmemkey
      refine ⟨hperm.nodup_iff.mpr ihN, by rw [hkeys]; exact ihKN, ?_, ?_⟩
      · intro p hp
        rcases mem_objWrite_elim hp with rfl | hmem
        · rfl
        · exact ihC p hmem
      · intro x
        rw [hkeys, hperm.mem_iff]
        exact ihIff x
    | remove t l1 l2 elem hsplit hrest hhit hfile =>
      have hidsOld : elemIds s.elements =
          elemIds l1 ++ elem.entry_id :: elemIds l2 := by
        rw [hsplit, elemIds_append]
        rfl
      have hNold : (elemIds l1 ++ elem.entry_id :: elemIds l2).Nodup := by
        rw [← hidsOld]
        exact ihN
      have hNnew : (elemIds (l1 ++ l2)).Nodup := by
        rw [elemIds_append]
        exact ((List.sublist_cons_self elem.entry_id (elemIds l2)).append_left _).nodup hNold
      have hznotin : elem.entry_id ∉ elemIds l1 ++ elemIds l2 := by
        intro hc
        rcases List.mem_append.mp hc with hc1 | hc2
        · exact List.disjoint_of_nodup_append hNold hc1 (List.mem_cons_self _ _)
        · exact (List.nodup_cons.mp (List.nodup_append.mp hNold).2.1).1 hc2
      refine ⟨hNnew, ?_, ?_, ?_⟩
      · rw [objKeys_erase_eq]
        exact ihKN.filter _
      · intro p hp
        exact ihC p (List.mem_of_mem_filter hp)
      · intro x
        rw [elemIds_append, objKeys_erase_eq]
        by_cases hx : x = elem.entry_id
        · subst hx
          constructor
          · intro hc
            exact absurd hc hznotin
          · intro hc
            have := (List.mem_filter.mp hc).2
            simp at this
        · constructor
          · intro hc
            refine List.mem_filter.mpr ⟨?_, by simpa using hx⟩
            apply (ihIff x).mp
            rw [hidsOld]
            rcases List.mem_append.mp hc with h1 | h2
            · exact List.mem_append.mpr (Or.inl h1)
            · exact List.mem_append.mpr (Or.inr (List.mem_cons_of_mem _ h2))
          · intro hc
            have hmem := (ihIff x).mpr (List.mem_of_mem_filter hc)
            rw [hidsOld] at hmem
            rcases List.mem_append.mp hmem with h1 | h2
            · exact List.mem_append.mpr (Or.inl h1)
            · rcases List.mem_cons.mp h2 with h3 | h4
              · exact absurd h3 hx
              · exact List.mem_append.mpr (Or.inr h4)

/-- Witness for `C5_index_objects_agreement`: the state after one `add` of
`secureA` from a fresh store. -/
theorem C5_index_objects_agreement_witness :
    str "123e4567-e89b-42d3-a456-426614174000" ∈
        elemIds (([] : List IndexElem) ++ [secureA.toIndexElement]) ↔
      str "123e4567-e89b-42d3-a456-426614174000" ∈
        objKeys (objWrite [] secureA.entry_id secureA) :=
  C5_index_objects_agreement _
    (TAReachable.step _ _ TAReachable.init (TAStep.add ⟨[], []⟩ secureA (by simp [elemIds])))
    (str "123e4567-e89b-42d3-a456-426614174000")

/-- C6: migrating the spec's single v2 JSON record to v4 yields one record
with camelCase keys, the `keyId` / `description` / `ciphertext` values
unchanged, and an id equal to the freshly generated UUID text — which
parses as a valid UUID and in particular replaces `abc123`. -/
theorem C6_v2_to_v4_migration (u : Str) (hu : uuidShape u = true) :
    migrateJsonData (fun _ => u) 2 (some [v2record]) =
      .ok (some [[(str "timestamp", str "2023-06-12T08:13:45.171872Z"), (str "id", u),
        (str "keyId", str "371C136C"), (str "description", str "https://example.com"),
        (str "ciphertext", str "aGVsbG8=")]]) ∧
    uuidShape u = true ∧ u ≠ str "abc123" := by
  refine ⟨rfl, hu, ?_⟩
  intro hc
  rw [hc] at hu
  exact absurd hu (by decide)

/-- Witness for `C6_v2_to_v4_migration` at a concrete canonical UUID. -/
theorem C6_v2_to_v4_migration_witness :
    migrateJsonData (fun _ => uuidSample) 2 (some [v2record]) =
      .ok (some [[(str "timestamp", str "2023-06-12T08:13:45.171872Z"),
        (str "id", uuidSample), (str "keyId", str "371C136C"),
        (str "description", str "https://example.com"),
        (str "ciphertext", str "aGVsbG8=")]]) ∧
    uuidSample ≠ str "abc123" := by
  have h := C6_v2_to_v4_migration uuidSample (by decide)
  exact ⟨h.1, h.2.2⟩

/-- The digit characters are digits. -/
theorem digitChar_isDigit {d : Nat} (h : d < 10) : (digitChar d).isDigit = true := by
  interval_cases d <;> decide

/-- Decoding a digit character recovers its value. -/
theorem digitChar_toNat {d : Nat} (h : d < 10) : (digitChar d).toNat - 48 = d := by
  interval_cases d <;> decide

/-- Reading back a zero-padded decimal rendering recovers the value modulo
the field width. -/
theorem readDigits_padDigits (w : Nat) : ∀ (acc n : Nat) (rest : Str),
    readDigits acc w (padDigits w n ++ rest) = some (acc * 10 ^ w + n % 10 ^ w, rest) := by
  induction w with
  | zero =>
    intro acc n rest
    simp [padDigits, readDigits, Nat.mod_one]
  | succ w ih =>
    intro acc n rest
    have hd : n / 10 ^ w % 10 < 10 := Nat.mod_lt _ (by norm_num)
    simp only [padDigits, List.cons_append, List.append_eq, readDigits,
      digitChar_isDigit hd, if_true, digitChar_toNat hd, ih]
    have harith : (acc * 10 + n / 10 ^ w % 10) * 10 ^ w + n % 10 ^ w =
        acc * 10 ^ (w + 1) + n % 10 ^ (w + 1) := by
      rw [pow_succ, Nat.mod_mul]
      ring
    rw [harith]

/-- The expected character is consumed. -/
theorem expectChar_cons_self (c : Char) (s : Str) : expectChar c (c :: s) = some s := by
  simp [expectChar]

/-- No dot: the microsecond group is absent. -/
theorem readMicroseconds_Z (s : Str) : readMicroseconds ('Z' :: s) = some (0, 'Z' :: s) := rfl

/-- A dot introduces the six microsecond digits. -/
theorem readMicroseconds_dot (rest : Str) :
    readMicroseconds ('.' :: rest) = readDigits 0 6 rest := rfl

set_option maxHeartbeats 2000000 in
/-- Parsing the printed form of a well-formed timestamp recovers it. -/
theorem timestamp_roundtrip (t : Timestamp) (h : t.wf) :
    Timestamp.fromisoformat t.isoformat = some t := by
  obtain ⟨y, mo, d, hh, mi, s, us⟩ := t
  have hb := h
  simp only [Timestamp.wf] at hb
  obtain ⟨h1, h2, h3, h4, h5, h6, h7, h8, h9, h10⟩ := hb
  have hy : y % 10 ^ 4 = y := Nat.mod_eq_of_lt (by omega)
  have hmo : mo % 10 ^ 2 = mo := Nat.mod_eq_of_lt (by omega)
  have hd : d % 10 ^ 2 = d := Nat.mod_eq_of_lt (by omega)
  have hhh : hh % 10 ^ 2 = hh := Nat.mod_eq_of_lt (by omega)
  have hmi : mi % 10 ^ 2 = mi := Nat.mod_eq_of_lt (by omega)
  have hs : s % 10 ^ 2 = s := Nat.mod_eq_of_lt (by omega)
  have hwf : Timestamp.wf ⟨y, mo, d, hh, mi, s, us⟩ := h
  by_cases hus : us = 0
  · subst hus
    unfold Timestamp.isoformat Timestamp.fromisoformat
    simp only [reduceIte]
    simp only [List.append_assoc, List.cons_append, List.nil_append, List.append_nil]
    simp only [Option.bind_eq_bind]
    simp only [readDigits_padDigits, Option.some_bind, expectChar_cons_self,
      readMicroseconds_Z]
    simp only [Nat.zero_mul, Nat.zero_add, hy, hmo, hd, hhh, hmi, hs, List.isEmpty_nil,
      reduceIte]
    rw [if_pos hwf]
  · have hus6 : us % 10 ^ 6 = us := Nat.mod_eq_of_lt (by omega)
    unfold Timestamp.isoformat Timestamp.fromisoformat
    rw [if_neg hus]
    simp only [List.append_assoc, List.cons_append, List.nil_append, List.append_nil]
    simp only [Option.bind_eq_bind]
    simp only [readDigits_padDigits, Option.some_bind, expectChar_cons_self,
      readMicroseconds_dot]
    simp only [Nat.zero_mul, Nat.zero_add, hy, hmo, hd, hhh, hmi, hs, hus6,
      List.isEmpty_nil, reduceIte]
    rw [if_pos hwf]

/-- Decoding inverts the base64 alphabet on six-bit groups. -/
theorem b64Index_b64Char_fin : ∀ s : Fin 64, b64Index (b64Char s.val) = some s.val := by
  decide

/-- `b64Index_b64Char_fin` for bounded naturals. -/
theorem b64Index_b64Char {s : Nat} (h : s < 64) : b64Index (b64Char s) = some s :=
  b64Index_b64Char_fin ⟨s, h⟩

/-- No alphabet character is the padding character. -/
theorem b64Char_ne_pad_fin : ∀ s : Fin 64, (b64Char s.val == '=') = false := by
  decide

/-- `b64Char_ne_pad_fin` for bounded naturals. -/
theorem b64Char_ne_pad {s : Nat} (h : s < 64) : (b64Char s == '=') = false :=
  b64Char_ne_pad_fin ⟨s, h⟩

/-- `from_base64` inverts `to_base64` on byte strings. -/
theorem b64_roundtrip : ∀ l : Ciphertext, bytesWf l → b64decode (b64encode l) = some l
  | [], _ => rfl
  | [a], h => by
    have ha : a < 256 := h a (by simp)
    have h1 : a / 4 < 64 := by omega
    have h2 : a % 4 * 16 < 64 := by omega
    show b64decode (b64Char (a / 4) :: b64Char (a % 4 * 16) :: '=' :: '=' :: []) = some [a]
    simp only [b64decode, beq_self_eq_true, List.isEmpty_nil, Bool.and_true, if_true,
      reduceIte, Option.bind_eq_bind, Option.some_bind, b64Index_b64Char h1,
      b64Index_b64Char h2]
    have : a / 4 * 4 + a % 4 * 16 / 16 = a := by omega
    rw [this]
  | [a, b], h => by
    have ha : a < 256 := h a (by simp)
    have hb : b < 256 := h b (by simp)
    have h1 : a / 4 < 64 := by omega
    have h2 : a % 4 * 16 + b / 16 < 64 := by omega
    have h3 : b % 16 * 4 < 64 := by omega
    show b64decode (b64Char (a / 4) :: b64Char (a % 4 * 16 + b / 16) ::
        b64Char (b % 16 * 4) :: '=' :: []) = some [a, b]
    simp only [b64decode, b64Char_ne_pad h3, beq_self_eq_true, List.isEmpty_nil,
      Bool.false_eq_true, if_false, if_true, reduceIte, Option.bind_eq_bind,
      Option.some_bind, b64Index_b64Char h1, b64Index_b64Char h2, b64Index_b64Char h3]
    have e1 : a / 4 * 4 + (a % 4 * 16 + b / 16) / 16 = a := by omega
    have e2 : (a % 4 * 16 + b / 16) % 16 * 16 + b % 16 * 4 / 4 = b := by omega
    rw [e1, e2]
  | a :: b :: c :: rest, h => by
    have ha : a < 256 := h a (by simp)
    have hb : b < 256 := h b (by simp)
    have hc : c < 256 := h c (by simp)
    have hrest : bytesWf rest := fun x hx => h x (by simp [hx])
    have ih := b64_roundtrip rest hrest
    have h1 : a / 4 < 64 := by omega
    have h2 : a % 4 * 16 + b / 16 < 64 := by omega
    have h3 : b % 16 * 4 + c / 64 < 64 := by omega
    have h4 : c % 64 < 64 := by omega
    show b64decode (b64Char (a / 4) :: b64Char (a % 4 * 16 + b / 16) ::
        b64Char (b % 16 * 4 + c / 64) :: b64Char (c % 64) :: b64encode rest) =
      some (a :: b :: c :: rest)
    simp only [b64decode, b64Char_ne_pad h3, b64Char_ne_pad h4, Bool.false_eq_true,
      if_false, reduceIte, Option.bind_eq_bind, Option.some_bind, b64Index_b64Char h1,
      b64Index_b64Char h2, b64Index_b64Char h3, b64Index_b64Char h4, ih]
    have e1 : a / 4 * 4 + (a % 4 * 16 + b / 16) / 16 = a := by omega
    have e2 : (a % 4 * 16 + b / 16) % 16 * 16 + (b % 16 * 4 + c / 64) / 4 = b := by omega
    have e3 : (b % 16 * 4 + c / 64) % 4 * 64 + c % 64 = c := by omega
    rw [e1, e2, e3]

/-- A present, non-empty optional field survives the truthiness filter. -/
theorem truthyOpt_some_of_ne {s : Str} (h : s ≠ []) : truthyOpt (some s) = some s := by
  cases s with
  | nil => exact absurd rfl h
  | cons c t => rfl

/-- `uuid.UUID` text round-trip on canonical (lowercase, dashed) input. -/
theorem uuidNormalize_canonical {s : Str} (h1 : uuidShape s = true)
    (h2 : pyLower s = s) : uuidNormalize s = some s := by
  unfold uuidNormalize
  rw [if_pos h1, h2]

/-- The `identity` key of a serialised entry, when the field is present. -/
theorem to_dict_lookup_identity_some (e : Entry) (i : Str) (h : e.identity = some i) :
    dictGet e.to_dict (str "identity") = some i := by
  rcases hm : e.meta with _ | m <;> simp only [Entry.to_dict, h, hm] <;> rfl

/-- The `identity` key is absent when the field is. -/
theorem to_dict_lookup_identity_none (e : Entry) (h : e.identity = none) :
    dictGet e.to_dict (str "identity") = none := by
  rcases hm : e.meta with _ | m <;> simp only [Entry.to_dict, h, hm] <;> rfl

/-- The `meta` key of a serialised entry, when the field is present. -/
theorem to_dict_lookup_meta_some (e : Entry) (m : Str) (h : e.meta = some m) :
    dictGet e.to_dict (str "meta") = some m := by
  rcases hi : e.identity with _ | i <;> simp only [Entry.to_dict, h, hi] <;> rfl

/-- The `meta` key is absent when the field is. -/
theorem to_dict_lookup_meta_none (e : Entry) (h : e.meta = none) :
    dictGet e.to_dict (str "meta") = none := by
  rcases hi : e.identity with _ | i <;> simp only [Entry.to_dict, h, hi] <;> rfl

/-- `Entry.from_dict` inverts `Entry.to_dict` on entries whose timestamp is a
valid datetime, whose ciphertext is a byte string, and whose optional fields
are not present-but-empty. -/
theorem entry_roundtrip (e : Entry) (hts : e.timestamp.wf) (hct : bytesWf e.ciphertext)
    (hidne : e.identity ≠ some []) (hmne : e.meta ≠ some []) :
    Entry.from_dict e.to_dict = some e := by
  have gid : dictGet e.to_dict (str "id") = some e.entry_id := rfl
  have gkey : dictGet e.to_dict (str "key_id") = some e.key_id := rfl
  have gts : dictGet e.to_dict (str "timestamp") = some e.timestamp.isoformat := rfl
  have gdesc : dictGet e.to_dict (str "description") = some e.description := rfl
  have gct : dictGet e.to_dict (str "ciphertext") = some (b64encode e.ciphertext) := rfl
  simp only [Entry.from_dict, gid, gkey, gts, gdesc, gct, Option.bind_eq_bind,
    Option.some_bind, timestamp_roundtrip e.timestamp hts, b64_roundtrip e.ciphertext hct]
  have hidy : truthyOpt (dictGet e.to_dict (str "identity")) = e.identity := by
    rcases hi : e.identity with _ | i
    · rw [to_dict_lookup_identity_none e hi]
      rfl
    · rw [to_dict_lookup_identity_some e i hi]
      exact truthyOpt_some_of_ne (fun hc => hidne (by rw [hi, hc]))
  have hmeta : truthyOpt (dictGet e.to_dict (str "meta")) = e.meta := by
    rcases hm : e.meta with _ | m
    · rw [to_dict_lookup_meta_none e hm]
      rfl
    · rw [to_dict_lookup_meta_some e m hm]
      exact truthyOpt_some_of_ne (fun hc => hmne (by rw [hm, hc]))
  rw [hidy, hmeta]

/-- The `identity` key of a serialised plaintext record, when present. -/
theorem sec_to_dict_lookup_identity_some (e : SecureEntry) (i : Str)
    (h : e.identity = some i) : dictGet e.to_dict (str "identity") = some i := by
  rcases hm : e.meta with _ | m <;> simp only [SecureEntry.to_dict, h, hm] <;> rfl

/-- The `identity` key is absent when the field is. -/
theorem sec_to_dict_lookup_identity_none (e : SecureEntry) (h : e.identity = none) :
    dictGet e.to_dict (str "identity") = none := by
  rcases hm : e.meta with _ | m <;> simp only [SecureEntry.to_dict, h, hm] <;> rfl

/-- The `meta` key of a serialised plaintext record, when present. -/
theorem sec_to_dict_lookup_meta_some (e : SecureEntry) (m : Str) (h : e.meta = some m) :
    dictGet e.to_dict (str "meta") = some m := by
  rcases hi : e.identity with _ | i <;> simp only [SecureEntry.to_dict, h, hi] <;> rfl

/-- The `meta` key is absent when the field is. -/
theorem sec_to_dict_lookup_meta_none (e : SecureEntry) (h : e.meta = none) :
    dictGet e.to_dict (str "meta") = none := by
  rcases hi : e.identity with _ | i <;> simp only [SecureEntry.to_dict, h, hi] <;> rfl

/-- `SecureEntry.from_dict` inverts `SecureEntry.to_dict` on records whose
timestamp is a valid datetime, whose id is canonical UUID text, and whose
optional fields are not present-but-empty. -/
theorem secure_entry_roundtrip (e : SecureEntry) (hts : e.timestamp.wf)
    (hu : uuidShape e.entry_id = true) (hl : pyLower e.entry_id = e.entry_id)
    (hidne : e.identity ≠ some []) (hmne : e.meta ≠ some []) :
    SecureEntry.from_dict e.to_dict = some e := by
  have gid : dictGet e.to_dict (str "id") = some e.entry_id := rfl
  have gkey : dictGet e.to_dict (str "key_id") = some e.key_id := rfl
  have gts : dictGet e.to_dict (str "timestamp") = some e.timestamp.isoformat := rfl
  have gdesc : dictGet e.to_dict (str "description") = some e.description := rfl
  have gpt : dictGet e.to_dict (str "plaintext") = some e.plaintext := rfl
  simp only [SecureEntry.from_dict, gid, gkey, gts, gdesc, gpt, Option.bind_eq_bind,
    Option.some_bind, timestamp_roundtrip e.timestamp hts, uuidNormalize_canonical hu hl]
  have hidy : truthyOpt (dictGet e.to_dict (str "identity")) = e.identity := by
    rcases hi : e.identity with _ | i
    · rw [sec_to_dict_lookup_identity_none e hi]
      rfl
    · rw [sec_to_dict_lookup_identity_some e i hi]
      exact truthyOpt_some_of_ne (fun hc => hidne (by rw [hi, hc]))
  have hmeta : truthyOpt (dictGet e.to_dict (str "meta")) = e.meta := by
    rcases hm : e.meta with _ | m
    · rw [sec_to_dict_lookup_meta_none e hm]
      rfl
    · rw [sec_to_dict_lookup_meta_some e m hm]
      exact truthyOpt_some_of_ne (fun hc => hmne (by rw [hm, hc]))
  rw [hidy, hmeta]

/-- C9 counterexample: the claim fails for an entry whose `identity` is the
empty string — a value the constructors accept and `to_dict` serialises,
but which `from_dict`'s truthiness test (`Identity(x) if x else None`)
turns back into `None`, so `from_dict (to_dict e) ≠ e`. -/
theorem C9_counterexample :
    Entry.from_dict (Entry.to_dict entryEmptyIdentity) =
      some { entryEmptyIdentity with identity := none } ∧
    ({ entryEmptyIdentity with identity := none } : Entry) ≠ entryEmptyIdentity := by
  exact ⟨rfl, by decide⟩

/-- C9 amended: `from_dict (to_dict e) = e` for every `Entry` and
`SecureEntry` whose timestamp is a valid datetime, whose ciphertext is a
byte string, whose id (for `SecureEntry`) is canonical UUID text, and whose
optional `identity` / `meta` are absent or non-empty (the counterexample
shows present-but-empty fields collapse to absent); and
`from_base64 (to_base64 c) = c` for every `Ciphertext` unconditionally. -/
theorem C9_roundtrip_amended :
    (∀ e : Entry, e.timestamp.wf → bytesWf e.ciphertext →
      e.identity ≠ some [] → e.meta ≠ some [] →
      Entry.from_dict e.to_dict = some e) ∧
    (∀ e : SecureEntry, e.timestamp.wf →
      uuidShape e.entry_id = true → pyLower e.entry_id = e.entry_id →
      e.identity ≠ some [] → e.meta ≠ some [] →
      SecureEntry.from_dict e.to_dict = some e) ∧
    (∀ c : Ciphertext, bytesWf c → b64decode (b64encode c) = some c) :=
  ⟨fun e h1 h2 h3 h4 => entry_roundtrip e h1 h2 h3 h4,
   fun e h1 h2 h3 h4 h5 => secure_entry_roundtrip e h1 h2 h3 h4 h5,
   fun c h => b64_roundtrip c h⟩

/-- Witness for `C9_roundtrip_amended` at concrete records. -/
theorem C9_roundtrip_amended_witness :
    Entry.from_dict (Entry.to_dict entryA) = some entryA ∧
    SecureEntry.from_dict (SecureEntry.to_dict secureA) = some secureA ∧
    b64decode (b64encode [104, 101, 108]) = some [104, 101, 108] := by
  refine ⟨C9_roundtrip_amended.1 entryA ?_ ?_ ?_ ?_,
    C9_roundtrip_amended.2.1 secureA ?_ ?_ ?_ ?_ ?_,
    C9_roundtrip_amended.2.2 [104, 101, 108] ?_⟩ <;> decide

end Ananke
